import Mathlib

/-!
Shallow embedding of the extraction core of `src/main.rs` (cargo-euler).

The embedded code comprises:
 - `parse_from_relative_link` (the Link Index Parser),
 - `Levels.from_elements` (the Level List Extractor), and
 - `Problems.from_elements` (the Problem List Extractor),
together with a model of the fragments of the HTML DOM (`scraper` crate)
that these functions inspect: an element has a tag name, an attribute
list, a class set and a child-node list; a node is an element, a text
node, or some other node kind (comment, doctype, ...).

Modelling conventions:
 - Rust panics (`unwrap`, `expect`, `panic!`, `assert!`) are modelled as
   `Except.error` values carrying a constructor of `ExtractError` named
   after the specification's error taxonomy.  The source returns
   `Result<_, unhtml::Error>` but never constructs that error itself; all
   of its failure paths are panics.
 - `usize` is taken to be 64 bits wide; `str::parse::<usize>` is modelled
   by `parseUsize` (optional leading '+', then one or more ASCII decimal
   digits, value at most `USIZE_MAX`).
 - `scraper` stores an element's classes as a set, so iterating over them
   yields pairwise-distinct class names; where a statement depends on
   this, it carries a `List.Nodup` hypothesis on the class list.
 - The `warn!` log line for an unrecognized class is a side effect with no
   bearing on the returned value and is not modelled.
 - Rust evaluates the fields of a struct expression in the order written,
   so in `Levels::from_elements` the `description` match (and its panic)
   is evaluated before the `completed` match; the embedding preserves
   this order.
-/

def USIZE_MAX : Nat := 2 ^ 64 - 1

/-! ## DOM model (fragment of `scraper::Node` / `scraper::node::Element`) -/

mutual

inductive HElem where
  | mk (name : String) (attrs : List (String × String))
       (classes : List String) (children : List HNode)

inductive HNode where
  | element (e : HElem)
  | text (s : String)
  | other

end

def HElem.name : HElem → String
  | .mk n _ _ _ => n

def HElem.attrs : HElem → List (String × String)
  | .mk _ a _ _ => a

def HElem.classes : HElem → List String
  | .mk _ _ c _ => c

def HElem.children : HElem → List HNode
  | .mk _ _ _ ch => ch

/-- `Element::attr`: first attribute with the given key, if any. -/
def HElem.attr (e : HElem) (key : String) : Option String :=
  (e.attrs.find? (fun p => p.1 == key)).map (fun p => p.2)

/-- `NodeRef::children` on an arbitrary node: only element nodes have
children. -/
def HNode.childNodes : HNode → List HNode
  | .element e => e.children
  | _ => []

/-! ## The Link Index Parser (`parse_from_relative_link`) -/

/-- `str::split('=')` on the underlying character list: splitting never
yields an empty group list, and each `=` starts a new group. -/
def splitCharList (c : Char) : List Char → List (List Char)
  | [] => [[]]
  | a :: rest =>
    match splitCharList c rest with
    | [] => [[a]]
    | g :: gs => if a = c then [] :: g :: gs else (a :: g) :: gs

/-- `href.split('=')` as a list of strings (Rust `str::split` semantics:
`"".split('=')` is `[""]`, `"a=b=c".split('=')` is `["a","b","c"]`). -/
def splitEq (href : String) : List String :=
  (splitCharList '=' href.data).map String.mk

/-- Optional leading `+` accepted by Rust's unsigned integer parsing. -/
def stripPlus (l : List Char) : List Char :=
  match l with
  | c :: rest => if c = '+' then rest else c :: rest
  | [] => []

/-- Decimal value of a digit-character list, most significant first. -/
def digitsVal (l : List Char) : Nat :=
  l.foldl (fun acc c => acc * 10 + (c.toNat - 48)) 0

/-- Model of `str::parse::<usize>`: optional leading `+`, then a nonempty
run of ASCII digits whose value fits in `usize`; anything else fails
(`ParseIntError`). -/
def parseUsize (s : String) : Option Nat :=
  let l := stripPlus s.data
  if l.isEmpty then none
  else if l.all Char.isDigit then
    if digitsVal l ≤ USIZE_MAX then some (digitsVal l) else none
  else none

/-- `LevelLinkParseError` from the source: `SplitFailed` carries the href
(the spec's FormatError), `ParseFailed` wraps the integer-parse failure
(the spec's NumericError; the `ParseIntError` payload is not modelled
further). -/
inductive LevelLinkParseError where
  | splitFailed (href : String)
  | parseFailed
  deriving DecidableEq

/-- `parse_from_relative_link(thing, href)`: split `href` on `=` into
exactly two parts and parse the second as a `usize`.  The `thing`
argument is ignored (the tuple pattern shadows it), exactly as in the
source. -/
def parse_from_relative_link (thing : String) (href : String) :
    Except LevelLinkParseError Nat :=
  match splitEq href with
  | [_, level] =>
    match parseUsize level with
    | some n => Except.ok n
    | none => Except.error LevelLinkParseError.parseFailed
  | _ => Except.error (LevelLinkParseError.splitFailed href)

/-! ## Error taxonomy (panics of the two extractors) -/

/-- One constructor per distinct panic site of the extractors, named after
the specification's error taxonomy.  `ambiguousOrMissingStatus` covers
both the `assert!(solved.is_none())` panic (two recognized status
classes) and the `solved.expect(..)` panic (no recognized status class).
Element dumps interpolated into panic messages are not carried. -/
inductive ExtractError where
  | missingAttribute
  | linkParse (e : LevelLinkParseError)
  | sequenceGap (expected : Nat)
  | unrecognizedDescriptionFormat (level : Nat)
  | unrecognizedCompletionMarker (level : Nat)
  | unrecognizedAnchorFormat (level : Nat)
  | ambiguousOrMissingStatus
  | unrecognizedCellStructure
  deriving DecidableEq

structure Level where
  description : String
  completed : Bool
  deriving DecidableEq

/-! ## The Level List Extractor (`Levels::from_elements`) -/

/-- The body of the `Some((Element(resolution_tag), description_span))`
arm: build one `Level`.  Rust evaluates struct fields in written order,
so the description match (with its panic) runs before the completion
match. -/
def mkLevel (level : Nat) (resolution_tag : HElem) (description_span : HNode) :
    Except ExtractError Level :=
  match description_span.childNodes with
  | [HNode.element title, HNode.text d] =>
    if title.name = "div" then
      if resolution_tag.name = "div" then
        Except.ok { description := d, completed := false }
      else if resolution_tag.name = "img" then
        Except.ok { description := d, completed := true }
      else Except.error (ExtractError.unrecognizedCompletionMarker level)
    else Except.error (ExtractError.unrecognizedDescriptionFormat level)
  | _ => Except.error (ExtractError.unrecognizedDescriptionFormat level)

/-- One iteration of the `for anchor_el in iter` loop of
`Levels::from_elements`, with `count` the number of levels pushed so
far. -/
def levelStep (count : Nat) (anchor_el : HElem) : Except ExtractError Level :=
  match anchor_el.attr "href" with
  | none => Except.error ExtractError.missingAttribute
  | some href =>
    match parse_from_relative_link "level" href with
    | Except.error e => Except.error (ExtractError.linkParse e)
    | Except.ok level =>
      if level ≠ count + 1 then
        Except.error (ExtractError.sequenceGap (count + 1))
      else
        match anchor_el.children with
        | [HNode.element resolution_tag, description_span] =>
          mkLevel level resolution_tag description_span
        | _ => Except.error (ExtractError.unrecognizedAnchorFormat level)

/-- The loop of `Levels::from_elements`, with `levels` the vector built so
far. -/
def levelsGo (levels : List Level) : List HElem → Except ExtractError (List Level)
  | [] => Except.ok levels
  | e :: rest =>
    match levelStep levels.length e with
    | Except.ok lv => levelsGo (levels ++ [lv]) rest
    | Except.error err => Except.error err

/-- `Levels::from_elements`: fold `levelStep` over the document-ordered
anchor elements, starting from the empty vector. -/
def Levels.from_elements (iter : List HElem) : Except ExtractError (List Level) :=
  levelsGo [] iter

/-! ## The Problem List Extractor (`Problems::from_elements`) -/

/-- The `match class { .. }` inside the class loop: which classes are
recognized as a solution status. -/
def recognizeClass (c : String) : Option Bool :=
  if c = "problem_solved" then some true
  else if c = "problem_unsolved" then some false
  else none

/-- The `for class in problem_el.value().classes.iter()` loop, carrying
the `solved: Option<bool>` state.  A second recognized class trips
`assert!(solved.is_none())`; an unrecognized class is logged (`warn!`,
not modelled) and skipped. -/
def classFold (solved : Option Bool) : List String → Except ExtractError (Option Bool)
  | [] => Except.ok solved
  | c :: rest =>
    match recognizeClass c with
    | some v =>
      match solved with
      | some _ => Except.error ExtractError.ambiguousOrMissingStatus
      | none => classFold (some v) rest
    | none => classFold solved rest

/-- The class loop followed by `solved.expect("unable to find solution
status")`. -/
def cellStatus (classes : List String) : Except ExtractError Bool :=
  match classFold none classes with
  | Except.ok (some v) => Except.ok v
  | Except.ok none => Except.error ExtractError.ambiguousOrMissingStatus
  | Except.error e => Except.error e

/-- One iteration of the `for problem_el in iter` loop of
`Problems::from_elements`, with `count` the number of problems pushed so
far: class status first, then the single-anchor child shape, then href,
index parse, and the sequence check. -/
def problemStep (count : Nat) (problem_el : HElem) : Except ExtractError Bool :=
  match cellStatus problem_el.classes with
  | Except.error e => Except.error e
  | Except.ok solved =>
    match problem_el.children with
    | [HNode.element anchor] =>
      if anchor.name = "a" then
        match anchor.attr "href" with
        | none => Except.error ExtractError.missingAttribute
        | some link =>
          match parse_from_relative_link "problem" link with
          | Except.error e => Except.error (ExtractError.linkParse e)
          | Except.ok level =>
            if level ≠ count + 1 then
              Except.error (ExtractError.sequenceGap (count + 1))
            else Except.ok solved
      else Except.error ExtractError.unrecognizedCellStructure
    | _ => Except.error ExtractError.unrecognizedCellStructure

/-- The loop of `Problems::from_elements`, with `problems` the vector
built so far. -/
def problemsGo (problems : List Bool) : List HElem → Except ExtractError (List Bool)
  | [] => Except.ok problems
  | e :: rest =>
    match problemStep problems.length e with
    | Except.ok b => problemsGo (problems ++ [b]) rest
    | Except.error err => Except.error err

/-- `Problems::from_elements`: fold `problemStep` over the document-ordered
table cells, starting from the empty vector. -/
def Problems.from_elements (iter : List HElem) : Except ExtractError (List Bool) :=
  problemsGo [] iter

/-! ## Spec-side vocabulary -/

/-- Decimal digits of `n`, most significant first, computed with explicit
fuel (`fuel` bounds the number of divisions by 10). -/
def natDigitsAux : Nat → Nat → List Char
  | 0, _ => []
  | fuel + 1, n =>
    if n < 10 then [Nat.digitChar n]
    else natDigitsAux fuel (n / 10) ++ [Nat.digitChar (n % 10)]

/-- Decimal string of a natural number (`n + 1` fuel always suffices). -/
def decimalRepr (n : Nat) : String := String.mk (natDigitsAux (n + 1) n)

/-- Whether an extraction result is a success (`Ok`). -/
def extractOk {ε α : Type} : Except ε α → Bool
  | Except.ok _ => true
  | Except.error _ => false

/-- The `Level` record a well-formed level anchor denotes: description from
the text node under the second child, completion from the first child's
tag. -/
def levelOf (e : HElem) : Level :=
  { description :=
      match e.children with
      | [_, ds] =>
        match ds.childNodes with
        | [_, HNode.text d] => d
        | _ => ""
      | _ => ""
    completed :=
      match e.children with
      | HNode.element rt :: _ => rt.name == "img"
      | _ => false }

/-- A level anchor as the page format intends it: href `level?x=<idx>`,
exactly two children, the first an element tagged `div` or `img`, the
second with exactly two child nodes, an element tagged `div` followed by
a text node. -/
def goodLevelAnchor (idx : Nat) (e : HElem) : Prop :=
  e.attr "href" = some ("level?x=" ++ decimalRepr idx) ∧
  ∃ rt ds, e.children = [HNode.element rt, ds] ∧
    (rt.name = "div" ∨ rt.name = "img") ∧
    ∃ t d, ds.childNodes = [HNode.element t, HNode.text d] ∧ t.name = "div"

/-! ## Concrete inputs used by witnesses and counterexamples -/

/-- A fully well-formed level anchor for level 1. -/
def c1LevelAnchor : HElem :=
  HElem.mk "a" [("href", "level?x=1")] []
    [ HNode.element (HElem.mk "div" [] [] []),
      HNode.element (HElem.mk "span" [] []
        [HNode.element (HElem.mk "div" [] [] []), HNode.text "Level 1"]) ]

/-- A fully well-formed problem cell for problem 1. -/
def c1ProblemCell : HElem :=
  HElem.mk "td" [] ["problem_unsolved"]
    [HNode.element (HElem.mk "a" [("href", "problem?x=1")] [] [])]

/-- An anchor whose href is `level?x=1` but which has no children. -/
def c3ChildlessAnchor : HElem :=
  HElem.mk "a" [("href", "level?x=1")] [] []

/-- Two well-formed level anchors, for levels 1 (incomplete) and 2
(complete). -/
def c3Anchor1 : HElem :=
  HElem.mk "a" [("href", "level?x=1")] []
    [ HNode.element (HElem.mk "div" [] [] []),
      HNode.element (HElem.mk "span" [] []
        [HNode.element (HElem.mk "div" [] [] []), HNode.text "first"]) ]

def c3Anchor2 : HElem :=
  HElem.mk "a" [("href", "level?x=2")] []
    [ HNode.element (HElem.mk "img" [] [] []),
      HNode.element (HElem.mk "span" [] []
        [HNode.element (HElem.mk "div" [] [] []), HNode.text "second"]) ]

/-- A problem cell carrying both recognized status classes and an anchor
child whose href index is 2 (expected: 1). -/
def c4AmbiguousGapCell : HElem :=
  HElem.mk "td" [] ["problem_solved", "problem_unsolved"]
    [HNode.element (HElem.mk "a" [("href", "problem?x=2")] [] [])]

/-- A childless anchor whose href index is 2 (expected: 1). -/
def c4GapAnchor : HElem :=
  HElem.mk "a" [("href", "level?x=2")] [] []

/-- A well-classed problem cell whose anchor's href index is 2
(expected: 1). -/
def c4GapCell : HElem :=
  HElem.mk "td" [] ["problem_solved"]
    [HNode.element (HElem.mk "a" [("href", "problem?x=2")] [] [])]

/-- A level anchor whose first child is tagged `span` and whose second
child has no children (malformed description). -/
def c5SpanBadDescAnchor : HElem :=
  HElem.mk "a" [("href", "level?x=1")] []
    [ HNode.element (HElem.mk "span" [] [] []),
      HNode.element (HElem.mk "span" [] [] []) ]

/-- A level anchor whose first child is tagged `span` but whose second
child is a well-formed description span. -/
def c5SpanGoodDescAnchor : HElem :=
  HElem.mk "a" [("href", "level?x=1")] []
    [ HNode.element (HElem.mk "span" [] [] []),
      HNode.element (HElem.mk "span" [] []
        [HNode.element (HElem.mk "div" [] [] []), HNode.text "desc"]) ]

/-- A problem cell with classes `problem_solved extra-style` and a
well-formed anchor child for problem 1. -/
def c6ExtraStyleCell : HElem :=
  HElem.mk "td" [] ["problem_solved", "extra-style"]
    [HNode.element (HElem.mk "a" [("href", "problem?x=1")] [] [])]

/-- A problem cell with no classes and no children. -/
def c7NoStatusNoChildCell : HElem :=
  HElem.mk "td" [] [] []

/-- A problem cell with a valid status class but no children. -/
def c7ChildlessCell : HElem :=
  HElem.mk "td" [] ["problem_solved"] []

/-- An anchor with no `href` attribute. -/
def c8NoHrefAnchor : HElem :=
  HElem.mk "a" [] [] []

/-- A problem cell for problem 1 followed by one with no status class. -/
def c8BadStatusCell : HElem :=
  HElem.mk "td" [] ["other-style"]
    [HNode.element (HElem.mk "a" [("href", "problem?x=2")] [] [])]

/-! ## Helper lemmas about the extraction folds -/

theorem levelsGo_append (acc : List Level) (xs ys : List HElem) :
    levelsGo acc (xs ++ ys) =
      match levelsGo acc xs with
      | Except.ok l => levelsGo l ys
      | Except.error e => Except.error e := by
  induction xs generalizing acc with
  | nil => simp [levelsGo]
  | cons x xs ih =>
    simp only [List.cons_append, levelsGo]
    cases levelStep acc.length x with
    | ok lv => exact ih (acc ++ [lv])
    | error e => rfl

theorem problemsGo_append (acc : List Bool) (xs ys : List HElem) :
    problemsGo acc (xs ++ ys) =
      match problemsGo acc xs with
      | Except.ok l => problemsGo l ys
      | Except.error e => Except.error e := by
  induction xs generalizing acc with
  | nil => simp [problemsGo]
  | cons x xs ih =>
    simp only [List.cons_append, problemsGo]
    cases problemStep acc.length x with
    | ok b => exact ih (acc ++ [b])
    | error e => rfl

theorem levelsGo_ok_length : ∀ (es : List HElem) (acc ls : List Level),
    levelsGo acc es = Except.ok ls → ls.length = acc.length + es.length := by
  intro es
  induction es with
  | nil =>
    intro acc ls h
    simp only [levelsGo] at h
    cases h
    simp
  | cons x rest ih =>
    intro acc ls h
    simp only [levelsGo] at h
    split at h
    next lv hstep =>
      have h2 := ih (acc ++ [lv]) ls h
      simp only [List.length_append, List.length_cons, List.length_nil] at h2 ⊢
      omega
    next err hstep => exact Except.noConfusion h

theorem problemsGo_ok_length : ∀ (es : List HElem) (acc bs : List Bool),
    problemsGo acc es = Except.ok bs → bs.length = acc.length + es.length := by
  intro es
  induction es with
  | nil =>
    intro acc bs h
    simp only [problemsGo] at h
    cases h
    simp
  | cons x rest ih =>
    intro acc bs h
    simp only [problemsGo] at h
    split at h
    next b hstep =>
      have h2 := ih (acc ++ [b]) bs h
      simp only [List.length_append, List.length_cons, List.length_nil] at h2 ⊢
      omega
    next err hstep => exact Except.noConfusion h

theorem levelStep_ok_href {c : Nat} {e : HElem} {lv : Level}
    (h : levelStep c e = Except.ok lv) :
    ∃ href, e.attr "href" = some href ∧
      parse_from_relative_link "level" href = Except.ok (c + 1) := by
  unfold levelStep at h
  split at h
  next => exact Except.noConfusion h
  next href hattr =>
    split at h
    next err hp => exact Except.noConfusion h
    next n hp =>
      split at h
      next hne => exact Except.noConfusion h
      next hne =>
        rw [not_not] at hne
        rw [hne] at hp
        exact ⟨href, hattr, hp⟩

theorem problemStep_ok_anchor {c : Nat} {e : HElem} {b : Bool}
    (h : problemStep c e = Except.ok b) :
    ∃ a href, e.children = [HNode.element a] ∧ a.name = "a" ∧
      a.attr "href" = some href ∧
      parse_from_relative_link "problem" href = Except.ok (c + 1) := by
  unfold problemStep at h
  split at h
  next => exact Except.noConfusion h
  next solved hstat =>
    split at h
    next anchor hch =>
      split at h
      next hname =>
        split at h
        next => exact Except.noConfusion h
        next link hattr =>
          split at h
          next err hp => exact Except.noConfusion h
          next n hp =>
            split at h
            next hne => exact Except.noConfusion h
            next hne =>
              rw [not_not] at hne
              rw [hne] at hp
              exact ⟨anchor, link, hch, hname, hattr, hp⟩
      next hname => exact Except.noConfusion h
    next hch => exact Except.noConfusion h

theorem levelsGo_ok_index : ∀ (es : List HElem) (acc ls : List Level),
    levelsGo acc es = Except.ok ls →
    ∀ i e, es[i]? = some e →
      ∃ href, e.attr "href" = some href ∧
        parse_from_relative_link "level" href = Except.ok (acc.length + i + 1) := by
  intro es
  induction es with
  | nil => intro acc ls h i e hi; simp at hi
  | cons x rest ih =>
    intro acc ls h i e hi
    simp only [levelsGo] at h
    split at h
    next lv hstep =>
      cases i with
      | zero =>
        simp only [List.getElem?_cons_zero, Option.some.injEq] at hi
        subst hi
        simpa using levelStep_ok_href hstep
      | succ i =>
        simp only [List.getElem?_cons_succ] at hi
        obtain ⟨href, h3, h4⟩ := ih (acc ++ [lv]) ls h i e hi
        refine ⟨href, h3, ?_⟩
        have hlen : (acc ++ [lv]).length + i + 1 = acc.length + (i + 1) + 1 := by
          simp only [List.length_append, List.length_cons, List.length_nil]
          omega
        rwa [hlen] at h4
    next err hstep => exact Except.noConfusion h

theorem problemsGo_ok_index : ∀ (es : List HElem) (acc bs : List Bool),
    problemsGo acc es = Except.ok bs →
    ∀ i e, es[i]? = some e →
      ∃ a href, e.children = [HNode.element a] ∧ a.name = "a" ∧
        a.attr "href" = some href ∧
        parse_from_relative_link "problem" href = Except.ok (acc.length + i + 1) := by
  intro es
  induction es with
  | nil => intro acc bs h i e hi; simp at hi
  | cons x rest ih =>
    intro acc bs h i e hi
    simp only [problemsGo] at h
    split at h
    next b hstep =>
      cases i with
      | zero =>
        simp only [List.getElem?_cons_zero, Option.some.injEq] at hi
        subst hi
        simpa using problemStep_ok_anchor hstep
      | succ i =>
        simp only [List.getElem?_cons_succ] at hi
        obtain ⟨a, href, h2, h3, h4, h5⟩ := ih (acc ++ [b]) bs h i e hi
        refine ⟨a, href, h2, h3, h4, ?_⟩
        have hlen : (acc ++ [b]).length + i + 1 = acc.length + (i + 1) + 1 := by
          simp only [List.length_append, List.length_cons, List.length_nil]
          omega
        rwa [hlen] at h5
    next err hstep => exact Except.noConfusion h

/-! ## Splitting and decimal-representation lemmas -/

theorem splitCharList_ne_nil (c : Char) : ∀ l, splitCharList c l ≠ [] := by
  intro l
  induction l with
  | nil => simp [splitCharList]
  | cons a rest ih =>
    simp only [splitCharList]
    split
    · simp
    · split <;> simp

theorem splitCharList_not_mem (c : Char) :
    ∀ l, c ∉ l → splitCharList c l = [l] := by
  intro l
  induction l with
  | nil => intro _; rfl
  | cons a rest ih =>
    intro h
    have ha : a ≠ c := fun hh => h (by simp [hh])
    have hr : c ∉ rest := fun hh => h (List.mem_cons_of_mem _ hh)
    simp [splitCharList, ih hr, ha]

theorem splitCharList_sep (c : Char) : ∀ (l1 l2 : List Char), c ∉ l1 →
    splitCharList c (l1 ++ c :: l2) = l1 :: splitCharList c l2 := by
  intro l1
  induction l1 with
  | nil =>
    intro l2 _
    simp only [List.nil_append, splitCharList]
    cases hs : splitCharList c l2 with
    | nil => exact absurd hs (splitCharList_ne_nil c l2)
    | cons g gs => simp
  | cons a l1 ih =>
    intro l2 h
    have ha : a ≠ c := fun hh => h (by simp [hh])
    have h1 : c ∉ l1 := fun hm => h (List.mem_cons_of_mem _ hm)
    simp only [List.cons_append, splitCharList, List.append_eq]
    rw [ih l2 h1]
    simp [ha]

theorem natDigitsAux_succ (fuel n : Nat) :
    natDigitsAux (fuel + 1) n =
      if n < 10 then [Nat.digitChar n]
      else natDigitsAux fuel (n / 10) ++ [Nat.digitChar (n % 10)] := rfl

theorem digitChar_facts {d : Nat} (h : d < 10) :
    (Nat.digitChar d).isDigit = true ∧ (Nat.digitChar d).toNat - 48 = d := by
  interval_cases d <;> exact ⟨by decide, by decide⟩

theorem digitsVal_append_singleton (l : List Char) (ch : Char) :
    digitsVal (l ++ [ch]) = digitsVal l * 10 + (ch.toNat - 48) := by
  simp [digitsVal, List.foldl_append]

theorem natDigitsAux_sound : ∀ (fuel n : Nat), n < 10 ^ (fuel + 1) →
    (natDigitsAux (fuel + 1) n).all Char.isDigit = true ∧
    digitsVal (natDigitsAux (fuel + 1) n) = n ∧
    natDigitsAux (fuel + 1) n ≠ [] := by
  intro fuel
  induction fuel with
  | zero =>
    intro n hn
    have h10 : n < 10 := by simpa using hn
    rw [natDigitsAux_succ, if_pos h10]
    refine ⟨?_, ?_, by simp⟩
    · simpa using (digitChar_facts h10).1
    · simpa [digitsVal] using (digitChar_facts h10).2
  | succ fuel ih =>
    intro n hn
    by_cases h10 : n < 10
    · rw [natDigitsAux_succ, if_pos h10]
      refine ⟨?_, ?_, by simp⟩
      · simpa using (digitChar_facts h10).1
      · simpa [digitsVal] using (digitChar_facts h10).2
    · have hdiv : n / 10 < 10 ^ (fuel + 1) := by
        apply (Nat.div_lt_iff_lt_mul (by norm_num)).2
        calc n < 10 ^ (fuel + 1 + 1) := hn
        _ = 10 ^ (fuel + 1) * 10 := by rw [pow_succ]
      obtain ⟨hall, hval, hne⟩ := ih (n / 10) hdiv
      have hmod : n % 10 < 10 := Nat.mod_lt n (by norm_num)
      have hch := digitChar_facts hmod
      rw [natDigitsAux_succ, if_neg h10]
      refine ⟨?_, ?_, by simp⟩
      · simp [List.all_append, hall, hch.1]
      · rw [digitsVal_append_singleton, hval, hch.2]
        omega

theorem decimalRepr_sound (n : Nat) :
    (decimalRepr n).data.all Char.isDigit = true ∧
    digitsVal (decimalRepr n).data = n ∧
    (decimalRepr n).data ≠ [] := by
  have hn : n < 10 ^ (n + 1) :=
    calc n < 10 ^ n := Nat.lt_pow_self (by norm_num) n
    _ ≤ 10 ^ (n + 1) := Nat.pow_le_pow_right (by norm_num) (Nat.le_succ n)
  exact natDigitsAux_sound n n hn

theorem parseUsize_decimalRepr {n : Nat} (h : n ≤ USIZE_MAX) :
    parseUsize (decimalRepr n) = some n := by
  obtain ⟨hall, hval, hne⟩ := decimalRepr_sound n
  have hsp : stripPlus (decimalRepr n).data = (decimalRepr n).data := by
    cases hd : (decimalRepr n).data with
    | nil => rfl
    | cons c l =>
      have hc : c.isDigit = true := by
        rw [hd, List.all_cons, Bool.and_eq_true] at hall
        exact hall.1
      have hcp : c ≠ '+' := by
        intro hcc
        rw [hcc] at hc
        exact absurd hc (by decide)
      simp [stripPlus, hcp]
  simp only [parseUsize, hsp]
  rw [if_neg (by simpa [List.isEmpty_iff] using hne), if_pos hall, hval, if_pos h]

theorem splitEq_level_decimal (n : Nat) :
    splitEq ("level?x=" ++ decimalRepr n) = ["level?x", decimalRepr n] := by
  obtain ⟨hall, hval, hne⟩ := decimalRepr_sound n
  have hnomem : '=' ∉ (decimalRepr n).data := by
    intro hm
    have := List.all_eq_true.mp hall _ hm
    exact absurd this (by decide)
  have hdata : ("level?x=" ++ decimalRepr n).data
      = ['l', 'e', 'v', 'e', 'l', '?', 'x'] ++ '=' :: (decimalRepr n).data := rfl
  unfold splitEq
  rw [hdata, splitCharList_sep _ _ _ (by decide),
    splitCharList_not_mem _ _ hnomem]
  rfl

theorem parse_level_href (thing : String) {n : Nat} (h : n ≤ USIZE_MAX) :
    parse_from_relative_link thing ("level?x=" ++ decimalRepr n)
      = Except.ok n := by
  unfold parse_from_relative_link
  rw [splitEq_level_decimal]
  simp [parseUsize_decimalRepr h]

/-! ## Class-status lemmas -/

theorem classFold_skip_all : ∀ (cs : List String) (st : Option Bool),
    "problem_solved" ∉ cs → "problem_unsolved" ∉ cs →
    classFold st cs = Except.ok st := by
  intro cs
  induction cs with
  | nil => intro st _ _; rfl
  | cons c rest ih =>
    intro st h1 h2
    have hc1 : c ≠ "problem_solved" := fun hh => h1 (by simp [hh])
    have hc2 : c ≠ "problem_unsolved" := fun hh => h2 (by simp [hh])
    simp only [classFold, recognizeClass, if_neg hc1, if_neg hc2]
    exact ih st (fun hm => h1 (List.mem_cons_of_mem _ hm))
      (fun hm => h2 (List.mem_cons_of_mem _ hm))

theorem classFold_second : ∀ (cs : List String) (v : Bool),
    ("problem_solved" ∈ cs ∨ "problem_unsolved" ∈ cs) →
    classFold (some v) cs = Except.error ExtractError.ambiguousOrMissingStatus := by
  intro cs
  induction cs with
  | nil => intro v h; simp at h
  | cons c rest ih =>
    intro v h
    by_cases hc1 : c = "problem_solved"
    · simp [classFold, recognizeClass, hc1]
    · by_cases hc2 : c = "problem_unsolved"
      · simp [classFold, recognizeClass, hc2]
      · have h' : "problem_solved" ∈ rest ∨ "problem_unsolved" ∈ rest := by
          rcases h with h | h
          · rcases List.mem_cons.mp h with he | hm
            · exact absurd he.symm hc1
            · exact Or.inl hm
          · rcases List.mem_cons.mp h with he | hm
            · exact absurd he.symm hc2
            · exact Or.inr hm
        simp only [classFold, recognizeClass, if_neg hc1, if_neg hc2]
        exact ih v h'

theorem classFold_solved_only : ∀ (cs : List String), cs.Nodup →
    "problem_solved" ∈ cs → "problem_unsolved" ∉ cs →
    classFold none cs = Except.ok (some true) := by
  intro cs
  induction cs with
  | nil => intro _ h _; simp at h
  | cons c rest ih =>
    intro hnd hmem hnot
    have hc2 : c ≠ "problem_unsolved" := fun hh => hnot (by simp [hh])
    have hnr : "problem_unsolved" ∉ rest :=
      fun hm => hnot (List.mem_cons_of_mem _ hm)
    by_cases hc1 : c = "problem_solved"
    · have hsr : "problem_solved" ∉ rest := by
        subst hc1
        exact (List.nodup_cons.mp hnd).1
      simp only [classFold, recognizeClass, if_pos hc1]
      exact classFold_skip_all rest (some true) hsr hnr
    · have hmr : "problem_solved" ∈ rest := by
        rcases List.mem_cons.mp hmem with he | hm
        · exact absurd he.symm hc1
        · exact hm
      simp only [classFold, recognizeClass, if_neg hc1, if_neg hc2]
      exact ih (List.nodup_cons.mp hnd).2 hmr hnr

theorem classFold_unsolved_only : ∀ (cs : List String), cs.Nodup →
    "problem_unsolved" ∈ cs → "problem_solved" ∉ cs →
    classFold none cs = Except.ok (some false) := by
  intro cs
  induction cs with
  | nil => intro _ h _; simp at h
  | cons c rest ih =>
    intro hnd hmem hnot
    have hc1 : c ≠ "problem_solved" := fun hh => hnot (by simp [hh])
    have hnr : "problem_solved" ∉ rest :=
      fun hm => hnot (List.mem_cons_of_mem _ hm)
    by_cases hc2 : c = "problem_unsolved"
    · have hsr : "problem_unsolved" ∉ rest := by
        subst hc2
        exact (List.nodup_cons.mp hnd).1
      simp only [classFold, recognizeClass, if_neg hc1, if_pos hc2]
      exact classFold_skip_all rest (some false) hnr hsr
    · have hmr : "problem_unsolved" ∈ rest := by
        rcases List.mem_cons.mp hmem with he | hm
        · exact absurd he.symm hc2
        · exact hm
      simp only [classFold, recognizeClass, if_neg hc1, if_neg hc2]
      exact ih (List.nodup_cons.mp hnd).2 hmr hnr

theorem classFold_both : ∀ (cs : List String),
    "problem_solved" ∈ cs → "problem_unsolved" ∈ cs →
    classFold none cs = Except.error ExtractError.ambiguousOrMissingStatus := by
  intro cs
  induction cs with
  | nil => intro h _; simp at h
  | cons c rest ih =>
    intro h1 h2
    by_cases hc1 : c = "problem_solved"
    · have hr : "problem_unsolved" ∈ rest := by
        rcases List.mem_cons.mp h2 with he | hm
        · rw [hc1] at he; exact absurd he (by decide)
        · exact hm
      simp only [classFold, recognizeClass, if_pos hc1]
      exact classFold_second rest true (Or.inr hr)
    · by_cases hc2 : c = "problem_unsolved"
      · have hr : "problem_solved" ∈ rest := by
          rcases List.mem_cons.mp h1 with he | hm
          · rw [hc2] at he; exact absurd he (by decide)
          · exact hm
        simp only [classFold, recognizeClass, if_neg hc1, if_pos hc2]
        exact classFold_second rest false (Or.inl hr)
      · have h1' : "problem_solved" ∈ rest := by
          rcases List.mem_cons.mp h1 with he | hm
          · exact absurd he.symm hc1
          · exact hm
        have h2' : "problem_unsolved" ∈ rest := by
          rcases List.mem_cons.mp h2 with he | hm
          · exact absurd he.symm hc2
          · exact hm
        simp only [classFold, recognizeClass, if_neg hc1, if_neg hc2]
        exact ih h1' h2'

theorem cellStatus_solved_only {cs : List String} (hnd : cs.Nodup)
    (h1 : "problem_solved" ∈ cs) (h2 : "problem_unsolved" ∉ cs) :
    cellStatus cs = Except.ok true := by
  unfold cellStatus
  rw [classFold_solved_only cs hnd h1 h2]

theorem cellStatus_unsolved_only {cs : List String} (hnd : cs.Nodup)
    (h1 : "problem_unsolved" ∈ cs) (h2 : "problem_solved" ∉ cs) :
    cellStatus cs = Except.ok false := by
  unfold cellStatus
  rw [classFold_unsolved_only cs hnd h1 h2]

theorem cellStatus_both {cs : List String}
    (h1 : "problem_solved" ∈ cs) (h2 : "problem_unsolved" ∈ cs) :
    cellStatus cs = Except.error ExtractError.ambiguousOrMissingStatus := by
  unfold cellStatus
  rw [classFold_both cs h1 h2]

theorem cellStatus_neither {cs : List String}
    (h1 : "problem_solved" ∉ cs) (h2 : "problem_unsolved" ∉ cs) :
    cellStatus cs = Except.error ExtractError.ambiguousOrMissingStatus := by
  unfold cellStatus
  rw [classFold_skip_all cs none h1 h2]

/-! ## Step-computation lemmas -/

theorem levelOf_eq {e : HElem} {rt t : HElem} {ds : HNode} {d : String}
    (hch : e.children = [HNode.element rt, ds])
    (hds : ds.childNodes = [HNode.element t, HNode.text d]) :
    levelOf e = { description := d, completed := rt.name == "img" } := by
  simp only [levelOf, hch, hds]

theorem mkLevel_good {level : Nat} {rt t : HElem} {ds : HNode} {d : String}
    (hds : ds.childNodes = [HNode.element t, HNode.text d])
    (ht : t.name = "div") (hrt : rt.name = "div" ∨ rt.name = "img") :
    mkLevel level rt ds = Except.ok { description := d, completed := rt.name == "img" } := by
  unfold mkLevel
  rw [hds]
  rcases hrt with h | h
  · simp [ht, h]
  · simp [ht, h]

theorem levelStep_good {count : Nat} {e : HElem}
    (hg : goodLevelAnchor (count + 1) e) (hb : count + 1 ≤ USIZE_MAX) :
    levelStep count e = Except.ok (levelOf e) := by
  obtain ⟨hhref, rt, ds, hch, hrt, t, d, hds, ht⟩ := hg
  have hp := parse_level_href "level" hb
  unfold levelStep
  simp only [hhref]
  simp only [hp]
  rw [if_neg (show ¬(count + 1 ≠ count + 1) by simp)]
  simp only [hch]
  rw [levelOf_eq hch hds]
  exact mkLevel_good hds ht hrt

theorem levelsGo_good : ∀ (es : List HElem) (acc : List Level),
    (∀ i e, es[i]? = some e → goodLevelAnchor (acc.length + i + 1) e) →
    acc.length + es.length ≤ USIZE_MAX →
    levelsGo acc es = Except.ok (acc ++ es.map levelOf) := by
  intro es
  induction es with
  | nil => intro acc _ _; simp [levelsGo]
  | cons x rest ih =>
    intro acc hg hb
    have hx : goodLevelAnchor (acc.length + 1) x := by
      simpa using hg 0 x (by simp)
    have hble : acc.length + 1 ≤ USIZE_MAX := by
      simp only [List.length_cons] at hb
      omega
    have hstep := levelStep_good hx hble
    simp only [levelsGo, hstep]
    have hg' : ∀ i e, rest[i]? = some e →
        goodLevelAnchor ((acc ++ [levelOf x]).length + i + 1) e := by
      intro i e hi
      have hh := hg (i + 1) e (by simpa using hi)
      have hlen : (acc ++ [levelOf x]).length + i + 1 = acc.length + (i + 1) + 1 := by
        simp only [List.length_append, List.length_cons, List.length_nil]
        omega
      rw [hlen]
      exact hh
    have hb' : (acc ++ [levelOf x]).length + rest.length ≤ USIZE_MAX := by
      simp only [List.length_append, List.length_cons, List.length_nil] at hb ⊢
      omega
    rw [ih (acc ++ [levelOf x]) hg' hb']
    simp

theorem levelStep_gap {count : Nat} {e : HElem} {href : String} {n : Nat}
    (hattr : e.attr "href" = some href)
    (hp : parse_from_relative_link "level" href = Except.ok n)
    (hne : n ≠ count + 1) :
    levelStep count e = Except.error (ExtractError.sequenceGap (count + 1)) := by
  unfold levelStep
  simp only [hattr]
  simp only [hp]
  rw [if_pos hne]

theorem problemStep_gap {count : Nat} {e : HElem} {b : Bool} {a : HElem}
    {href : String} {n : Nat}
    (hstat : cellStatus e.classes = Except.ok b)
    (hch : e.children = [HNode.element a]) (hname : a.name = "a")
    (hattr : a.attr "href" = some href)
    (hp : parse_from_relative_link "problem" href = Except.ok n)
    (hne : n ≠ count + 1) :
    problemStep count e = Except.error (ExtractError.sequenceGap (count + 1)) := by
  unfold problemStep
  simp only [hstat]
  simp only [hch]
  rw [if_pos hname]
  simp only [hattr]
  simp only [hp]
  rw [if_pos hne]

theorem problemStep_badShape {count : Nat} {e : HElem} {b : Bool}
    (hstat : cellStatus e.classes = Except.ok b)
    (hsh : ∀ a, e.children = [HNode.element a] → a.name ≠ "a") :
    problemStep count e = Except.error ExtractError.unrecognizedCellStructure := by
  unfold problemStep
  simp only [hstat]
  split
  next a hch => rw [if_neg (hsh a hch)]
  next hch => rfl

/-! ## Claim theorems -/

/-- C1: for every input element sequence on which an extractor (Level List
Extractor or Problem List Extractor) succeeds, the returned collection has
one record per input element, and the numeric index parsed (with the
Link Index Parser) from the hyperlink of the element at 0-based position
`i` is `i + 1`: position `i` holds the record whose parsed index is
`i + 1`, with no gaps, no reordering and no duplicates.  For a problem
cell the hyperlink is the `href` of its single anchor child. -/
theorem c1_index_position_invariant :
    (∀ es ls, Levels.from_elements es = Except.ok ls →
      ls.length = es.length ∧
      ∀ i e, es[i]? = some e →
        ∃ href, e.attr "href" = some href ∧
          parse_from_relative_link "level" href = Except.ok (i + 1)) ∧
    (∀ es bs, Problems.from_elements es = Except.ok bs →
      bs.length = es.length ∧
      ∀ i e, es[i]? = some e →
        ∃ a href, e.children = [HNode.element a] ∧ a.name = "a" ∧
          a.attr "href" = some href ∧
          parse_from_relative_link "problem" href = Except.ok (i + 1)) := by
  constructor
  · intro es ls h
    refine ⟨by simpa using levelsGo_ok_length es [] ls h, ?_⟩
    intro i e hi
    simpa using levelsGo_ok_index es [] ls h i e hi
  · intro es bs h
    refine ⟨by simpa using problemsGo_ok_length es [] bs h, ?_⟩
    intro i e hi
    simpa using problemsGo_ok_index es [] bs h i e hi

/-- Witness for C1: both extractors succeed on a concrete singleton input,
and the invariant instantiates at position 0 with parsed index 1. -/
theorem c1_witness :
    ([({ description := "Level 1", completed := false } : Level)].length
        = [c1LevelAnchor].length) ∧
    (∃ href, c1LevelAnchor.attr "href" = some href ∧
      parse_from_relative_link "level" href = Except.ok 1) ∧
    ∃ a href, c1ProblemCell.children = [HNode.element a] ∧ a.name = "a" ∧
      a.attr "href" = some href ∧
      parse_from_relative_link "problem" href = Except.ok 1 := by
  have h1 := c1_index_position_invariant.1 [c1LevelAnchor]
    [{ description := "Level 1", completed := false }] rfl
  have h2 := c1_index_position_invariant.2 [c1ProblemCell] [false] rfl
  refine ⟨h1.1, ?_, ?_⟩
  · simpa using h1.2 0 c1LevelAnchor rfl
  · simpa using h2.2 0 c1ProblemCell rfl

/-- C2: the Link Index Parser fails with FormatError (`SplitFailed`)
exactly when splitting the input on `=` does not yield exactly two parts;
otherwise it fails with NumericError (`ParseFailed`) exactly when the part
after `=` does not parse as a non-negative integer (`parseUsize`);
otherwise it returns that integer.  In particular `problem?x=7` parses to
`7`, `no-equals-sign` gives FormatError, and `problem?x=seven` gives
NumericError. -/
theorem c2_link_index_parse (thing href : String) :
    ((∃ s, parse_from_relative_link thing href
        = Except.error (LevelLinkParseError.splitFailed s)) ↔
      ¬ ∃ a b, splitEq href = [a, b]) ∧
    (∀ a b, splitEq href = [a, b] →
      ((parse_from_relative_link thing href
          = Except.error LevelLinkParseError.parseFailed) ↔
        parseUsize b = none) ∧
      ∀ n, parseUsize b = some n →
        parse_from_relative_link thing href = Except.ok n) ∧
    parse_from_relative_link thing "problem?x=7" = Except.ok 7 ∧
    parse_from_relative_link thing "no-equals-sign"
      = Except.error (LevelLinkParseError.splitFailed "no-equals-sign") ∧
    parse_from_relative_link thing "problem?x=seven"
      = Except.error LevelLinkParseError.parseFailed := by
  refine ⟨?_, ?_, rfl, rfl, rfl⟩
  · unfold parse_from_relative_link
    rcases hsplit : splitEq href with _ | ⟨a, _ | ⟨b, _ | ⟨c, rest⟩⟩⟩
    · simp [hsplit]
    · simp [hsplit]
    · cases hp : parseUsize b with
      | some n => simp [hsplit, hp]
      | none => simp [hsplit, hp]
    · simp [hsplit]
  · intro a b hab
    cases hp : parseUsize b with
    | some n =>
      have hok : parse_from_relative_link thing href = Except.ok n := by
        unfold parse_from_relative_link
        simp only [hab]
        simp only [hp]
      refine ⟨by simp [hok, hp], fun m hm => ?_⟩
      cases hm
      exact hok
    | none =>
      have herr : parse_from_relative_link thing href
          = Except.error LevelLinkParseError.parseFailed := by
        unfold parse_from_relative_link
        simp only [hab]
        simp only [hp]
      refine ⟨by simp [herr, hp], fun m hm => ?_⟩
      exact Option.noConfusion hm

/-- Witness for C2: the biconditional's success branch instantiated at the
concrete href `a=5`. -/
theorem c2_witness :
    splitEq "a=5" = ["a", "5"] ∧
    parseUsize "5" = some 5 ∧
    parse_from_relative_link "x" "a=5" = Except.ok 5 :=
  ⟨rfl, rfl, ((c2_link_index_parse "x" "a=5").2.1 "a" "5" rfl).2 5 rfl⟩

/-- C8: fail-fast, all-or-nothing extraction.  A successful extraction
covers every input element (the collection has exactly one record per
element), and if the prefix `es1` validates and the next element's step
fails, the whole extraction over `es1 ++ e :: es2` returns that single
error — never a prefix of the records. -/
theorem c8_fail_fast :
    (∀ es ls, Levels.from_elements es = Except.ok ls → ls.length = es.length) ∧
    (∀ es bs, Problems.from_elements es = Except.ok bs → bs.length = es.length) ∧
    (∀ es1 e es2 ls err, levelsGo [] es1 = Except.ok ls →
      levelStep ls.length e = Except.error err →
      Levels.from_elements (es1 ++ e :: es2) = Except.error err) ∧
    (∀ es1 e es2 bs err, problemsGo [] es1 = Except.ok bs →
      problemStep bs.length e = Except.error err →
      Problems.from_elements (es1 ++ e :: es2) = Except.error err) := by
  refine ⟨?_, ?_, ?_, ?_⟩
  · intro es ls h
    simpa using levelsGo_ok_length es [] ls h
  · intro es bs h
    simpa using problemsGo_ok_length es [] bs h
  · intro es1 e es2 ls err h1 h2
    unfold Levels.from_elements
    rw [levelsGo_append]
    simp only [h1]
    simp only [levelsGo]
    simp only [h2]
  · intro es1 e es2 bs err h1 h2
    unfold Problems.from_elements
    rw [problemsGo_append]
    simp only [h1]
    simp only [problemsGo]
    simp only [h2]

/-- Witness for C8: full-coverage applied to concrete successful runs, and
the abort clauses applied to a first-element failure of each extractor. -/
theorem c8_witness :
    ([({ description := "Level 1", completed := false } : Level)].length
        = [c1LevelAnchor].length) ∧
    (([false] : List Bool).length = [c1ProblemCell].length) ∧
    Levels.from_elements [c8NoHrefAnchor]
      = Except.error ExtractError.missingAttribute ∧
    Problems.from_elements [c8BadStatusCell]
      = Except.error ExtractError.ambiguousOrMissingStatus := by
  refine ⟨?_, ?_, ?_, ?_⟩
  · exact c8_fail_fast.1 [c1LevelAnchor] _ rfl
  · exact c8_fail_fast.2.1 [c1ProblemCell] _ rfl
  · exact c8_fail_fast.2.2.1 [] c8NoHrefAnchor [] []
      ExtractError.missingAttribute rfl rfl
  · exact c8_fail_fast.2.2.2 [] c8BadStatusCell [] []
      ExtractError.ambiguousOrMissingStatus rfl rfl

/-- C9: the Link Index Parser's result does not depend on its literal
first argument: the `thing` parameter is shadowed by the split's first
component and never validated against the href. -/
theorem c9_thing_ignored (t1 t2 href : String) :
    parse_from_relative_link t1 href = parse_from_relative_link t2 href := rfl

/-- C10: on an empty element sequence both extractors succeed with an
empty collection. -/
theorem c10_empty_inputs :
    Levels.from_elements [] = Except.ok [] ∧
    Problems.from_elements [] = Except.ok [] := ⟨rfl, rfl⟩

/-- C3 counterexample: an anchor whose href is `level?x=1` (N = 1, hrefs
`level?x=1` through `level?x=N`) but which has no children makes the Level
List Extractor fail instead of returning one level — the claim's premise
constrains only the hrefs, but the extractor also validates each anchor's
child structure. -/
theorem c3_counterexample :
    c3ChildlessAnchor.attr "href" = some "level?x=1" ∧
    Levels.from_elements [c3ChildlessAnchor]
      = Except.error (ExtractError.unrecognizedAnchorFormat 1) ∧
    extractOk (Levels.from_elements [c3ChildlessAnchor]) = false :=
  ⟨rfl, rfl, rfl⟩

/-- C3 (amended): for every sequence of anchor elements whose hrefs are
`level?x=1` through `level?x=N` in document order and whose children are
well-formed level-anchor children (`goodLevelAnchor`), the Level List
Extractor returns exactly N levels, in that document order (the level at
position i is built from the anchor at position i).  The bound
`N ≤ USIZE_MAX` is automatic in the source, where N is a collection
length. -/
theorem c3_amended (es : List HElem)
    (hbound : es.length ≤ USIZE_MAX)
    (hwf : ∀ i e, es[i]? = some e → goodLevelAnchor (i + 1) e) :
    Levels.from_elements es = Except.ok (es.map levelOf) := by
  unfold Levels.from_elements
  have h := levelsGo_good es []
    (fun i e hi => by simpa using hwf i e hi)
    (by simpa using hbound)
  simpa using h

/-- Witness for C3 (amended): two well-formed anchors with hrefs
`level?x=1`, `level?x=2` extract to exactly their two levels in order. -/
theorem c3_witness :
    Levels.from_elements [c3Anchor1, c3Anchor2]
      = Except.ok [{ description := "first", completed := false },
          { description := "second", completed := true }] := by
  have h := c3_amended [c3Anchor1, c3Anchor2] (by decide) ?_
  · exact h
  · intro i e hi
    rcases i with _ | _ | i
    · simp only [List.getElem?_cons_zero, Option.some.injEq] at hi
      subst hi
      exact ⟨rfl, HElem.mk "div" [] [] [], _, rfl, Or.inl rfl,
        HElem.mk "div" [] [] [], "first", rfl, rfl⟩
    · simp only [List.getElem?_cons_succ, List.getElem?_cons_zero,
        Option.some.injEq] at hi
      subst hi
      exact ⟨rfl, HElem.mk "img" [] [] [], _, rfl, Or.inr rfl,
        HElem.mk "div" [] [] [], "second", rfl, rfl⟩
    · simp at hi

/-- C4 counterexample: a problem cell whose anchor href index is 2 while 1
is expected, but which carries both recognized status classes, fails with
the ambiguous-status error, not SequenceGapError — in the Problem List
Extractor the class check runs before the index check. -/
theorem c4_counterexample :
    parse_from_relative_link "problem" "problem?x=2" = Except.ok 2 ∧
    Problems.from_elements [c4AmbiguousGapCell]
      = Except.error ExtractError.ambiguousOrMissingStatus ∧
    Problems.from_elements [c4AmbiguousGapCell]
      ≠ Except.error (ExtractError.sequenceGap 1) :=
  ⟨rfl, rfl, fun h => ExtractError.noConfusion (Except.error.inj h)⟩

/-- C4 (amended): in the Level List Extractor, any element whose href
parses to an index different from `current_count + 1` fails the whole
extraction with SequenceGapError (the gap check precedes the
child-structure checks); in the Problem List Extractor the same holds for
cells that first pass the class-status and cell-structure checks, which
the source runs before the index check. -/
theorem c4_amended :
    (∀ es1 e es2 ls href n, levelsGo [] es1 = Except.ok ls →
      e.attr "href" = some href →
      parse_from_relative_link "level" href = Except.ok n →
      n ≠ ls.length + 1 →
      Levels.from_elements (es1 ++ e :: es2)
        = Except.error (ExtractError.sequenceGap (ls.length + 1))) ∧
    (∀ es1 e es2 bs b a href n, problemsGo [] es1 = Except.ok bs →
      cellStatus (HElem.classes e) = Except.ok b →
      HElem.children e = [HNode.element a] → HElem.name a = "a" →
      a.attr "href" = some href →
      parse_from_relative_link "problem" href = Except.ok n →
      n ≠ bs.length + 1 →
      Problems.from_elements (es1 ++ e :: es2)
        = Except.error (ExtractError.sequenceGap (bs.length + 1))) := by
  constructor
  · intro es1 e es2 ls href n h1 h2 h3 h4
    unfold Levels.from_elements
    rw [levelsGo_append]
    simp only [h1]
    simp only [levelsGo]
    simp only [levelStep_gap h2 h3 h4]
  · intro es1 e es2 bs b a href n h1 h2 h3 h4 h5 h6 h7
    unfold Problems.from_elements
    rw [problemsGo_append]
    simp only [h1]
    simp only [problemsGo]
    simp only [problemStep_gap h2 h3 h4 h5 h6 h7]

/-- Witness for C4 (amended): an anchor with href index 2 when 1 is
expected fails with SequenceGapError, and likewise a well-classed,
well-shaped problem cell with index 2. -/
theorem c4_witness :
    Levels.from_elements [c4GapAnchor]
      = Except.error (ExtractError.sequenceGap 1) ∧
    Problems.from_elements [c4GapCell]
      = Except.error (ExtractError.sequenceGap 1) := by
  constructor
  · exact c4_amended.1 [] c4GapAnchor [] [] "level?x=2" 2 rfl rfl rfl (by decide)
  · exact c4_amended.2 [] c4GapCell [] [] true
      (HElem.mk "a" [("href", "problem?x=2")] [] []) "problem?x=2" 2
      rfl rfl rfl rfl rfl rfl (by decide)

/-- C5 counterexample: a level anchor whose first child is tagged `span`
and whose second child deviates from the description shape fails with
UnrecognizedDescriptionFormatError, not UnrecognizedCompletionMarkerError —
the source evaluates the description match before the completion match. -/
theorem c5_counterexample :
    Levels.from_elements [c5SpanBadDescAnchor]
      = Except.error (ExtractError.unrecognizedDescriptionFormat 1) ∧
    Levels.from_elements [c5SpanBadDescAnchor]
      ≠ Except.error (ExtractError.unrecognizedCompletionMarker 1) :=
  ⟨rfl, fun h => ExtractError.noConfusion (Except.error.inj h)⟩

/-- C5 (amended): for a level anchor with exactly two children whose first
child is an element and which passes the href and index checks, the
description-shape check runs first: if the second child deviates from
(element tagged `div`, text node), the step fails with
UnrecognizedDescriptionFormatError regardless of the first child's tag;
when the second child is well-formed, the text content becomes the
description and the first child's tag decides completion — `div` gives
`completed = false`, `img` gives `completed = true`, and any other tag
(e.g. `span`) fails with UnrecognizedCompletionMarkerError. -/
theorem c5_amended (count : Nat) (e : HElem) (href : String) (rt : HElem)
    (ds : HNode)
    (hhref : e.attr "href" = some href)
    (hparse : parse_from_relative_link "level" href = Except.ok (count + 1))
    (hch : HElem.children e = [HNode.element rt, ds]) :
    (∀ t d, HNode.childNodes ds = [HNode.element t, HNode.text d] →
      HElem.name t = "div" →
      (HElem.name rt = "div" →
        levelStep count e = Except.ok { description := d, completed := false }) ∧
      (HElem.name rt = "img" →
        levelStep count e = Except.ok { description := d, completed := true }) ∧
      (HElem.name rt ≠ "div" → HElem.name rt ≠ "img" →
        levelStep count e
          = Except.error (ExtractError.unrecognizedCompletionMarker (count + 1)))) ∧
    ((¬ ∃ t d, HNode.childNodes ds = [HNode.element t, HNode.text d] ∧
        HElem.name t = "div") →
      levelStep count e
        = Except.error (ExtractError.unrecognizedDescriptionFormat (count + 1))) := by
  have hred : levelStep count e = mkLevel (count + 1) rt ds := by
    unfold levelStep
    simp only [hhref]
    simp only [hparse]
    rw [if_neg (show ¬(count + 1 ≠ count + 1) by simp)]
    simp only [hch]
  constructor
  · intro t d hds ht
    refine ⟨?_, ?_, ?_⟩
    · intro hdiv
      rw [hred]
      unfold mkLevel
      simp only [hds]
      simp [ht, hdiv]
    · intro himg
      rw [hred]
      unfold mkLevel
      simp only [hds]
      simp [ht, himg]
    · intro h1 h2
      rw [hred]
      unfold mkLevel
      simp only [hds]
      simp [ht, h1, h2]
  · intro hbad
    rw [hred]
    unfold mkLevel
    split
    next title d heq =>
      by_cases htt : HElem.name title = "div"
      · exact absurd ⟨title, d, heq, htt⟩ hbad
      · rw [if_neg htt]
    next heq => rfl

/-- Witness for C5 (amended): a span-tagged completion marker with a
well-formed description span fails with the completion-marker error. -/
theorem c5_witness :
    levelStep 0 c5SpanGoodDescAnchor
      = Except.error (ExtractError.unrecognizedCompletionMarker 1) := by
  have h := c5_amended 0 c5SpanGoodDescAnchor "level?x=1"
    (HElem.mk "span" [] [] [])
    (HNode.element (HElem.mk "span" [] []
      [HNode.element (HElem.mk "div" [] [] []), HNode.text "desc"]))
    rfl rfl rfl
  exact (h.1 (HElem.mk "div" [] [] []) "desc" rfl rfl).2.2
    (by decide) (by decide)

/-- C6: for every problem cell, exactly one of `problem_solved` /
`problem_unsolved` among its (pairwise-distinct) classes determines the
solved boolean; unrecognized extra classes are skipped without error (the
concrete cell with classes `problem_solved extra-style` still extracts to
`solved = true`); if both recognized classes are present, or neither is,
the status resolution fails with AmbiguousOrMissingStatusError and that
error aborts the cell's processing. -/
theorem c6_status_classes (classes : List String) :
    (classes.Nodup → "problem_solved" ∈ classes →
      "problem_unsolved" ∉ classes → cellStatus classes = Except.ok true) ∧
    (classes.Nodup → "problem_unsolved" ∈ classes →
      "problem_solved" ∉ classes → cellStatus classes = Except.ok false) ∧
    ("problem_solved" ∈ classes → "problem_unsolved" ∈ classes →
      cellStatus classes = Except.error ExtractError.ambiguousOrMissingStatus) ∧
    ("problem_solved" ∉ classes → "problem_unsolved" ∉ classes →
      cellStatus classes = Except.error ExtractError.ambiguousOrMissingStatus) ∧
    (∀ count e err, cellStatus (HElem.classes e) = Except.error err →
      problemStep count e = Except.error err) ∧
    Problems.from_elements [c6ExtraStyleCell] = Except.ok [true] := by
  refine ⟨fun hnd h1 h2 => cellStatus_solved_only hnd h1 h2,
    fun hnd h1 h2 => cellStatus_unsolved_only hnd h1 h2,
    fun h1 h2 => cellStatus_both h1 h2,
    fun h1 h2 => cellStatus_neither h1 h2,
    ?_, rfl⟩
  intro count e err herr
  unfold problemStep
  simp only [herr]

/-- Witness for C6: concrete class lists for the one-recognized-class,
both-classes and no-recognized-class cases. -/
theorem c6_witness :
    cellStatus ["problem_unsolved", "some-style"] = Except.ok false ∧
    cellStatus ["problem_solved", "problem_unsolved"]
      = Except.error ExtractError.ambiguousOrMissingStatus ∧
    cellStatus ["other"] = Except.error ExtractError.ambiguousOrMissingStatus := by
  refine ⟨?_, ?_, ?_⟩
  · exact (c6_status_classes ["problem_unsolved", "some-style"]).2.1
      (by decide) (by decide) (by decide)
  · exact (c6_status_classes ["problem_solved", "problem_unsolved"]).2.2.1
      (by decide) (by decide)
  · exact (c6_status_classes ["other"]).2.2.2.1 (by decide) (by decide)

/-- C7 counterexample: a problem cell with zero children (and no status
class) fails with AmbiguousOrMissingStatusError, not
UnrecognizedCellStructureError — the class check runs before the
cell-structure check. -/
theorem c7_counterexample :
    Problems.from_elements [c7NoStatusNoChildCell]
      = Except.error ExtractError.ambiguousOrMissingStatus ∧
    Problems.from_elements [c7NoStatusNoChildCell]
      ≠ Except.error ExtractError.unrecognizedCellStructure :=
  ⟨rfl, fun h => ExtractError.noConfusion (Except.error.inj h)⟩

/-- C7 (amended): for every problem cell whose class-status resolution
succeeds (the class check runs first), any child shape other than exactly
one anchor element — zero children, more than one child, or a single
non-anchor child — fails the whole extraction with
UnrecognizedCellStructureError. -/
theorem c7_amended :
    ∀ es1 e es2 bs b, problemsGo [] es1 = Except.ok bs →
      cellStatus (HElem.classes e) = Except.ok b →
      (∀ a, HElem.children e = [HNode.element a] → HElem.name a ≠ "a") →
      Problems.from_elements (es1 ++ e :: es2)
        = Except.error ExtractError.unrecognizedCellStructure := by
  intro es1 e es2 bs b h1 h2 h3
  unfold Problems.from_elements
  rw [problemsGo_append]
  simp only [h1]
  simp only [problemsGo]
  simp only [problemStep_badShape h2 h3]

/-- Witness for C7 (amended): a well-classed cell with zero children fails
with UnrecognizedCellStructureError. -/
theorem c7_witness :
    Problems.from_elements [c7ChildlessCell]
      = Except.error ExtractError.unrecognizedCellStructure :=
  c7_amended [] c7ChildlessCell [] [] true rfl rfl
    (fun _ ha => List.noConfusion ha)
